import Mathlib

/-!
# Verification of the room-availability extractor (src/doc_parser.py)

A shallow embedding of `BookingHTMLParser.extract_room_data` from
`src/doc_parser.py`.  The document tree produced by BeautifulSoup is modelled
by `Node`; element lookup (`select`, `select_one`, `find_all`, `find_next`,
`find`) is modelled over the preorder (= document order) flattening of the
tree; Python exceptions that escape the extraction loop (`UnboundLocalError`
on `current_room_type`, `IndexError` on `options[-1]`) are modelled by
`Except.error`.
-/

mutual
/-- A markup tree node: either a text node or an element with a tag name, a
class list, an optional `id` attribute, an optional `fill` attribute and
children.  These are the only attributes the extractor reads. -/
inductive Node where
  | text (s : String)
  | elem (tag : String) (classes : List String) (idAttr : Option String)
      (fillAttr : Option String) (children : NodeList)
inductive NodeList where
  | nil
  | cons (n : Node) (ns : NodeList)
end

def NodeList.ofList : List Node → NodeList
  | [] => .nil
  | n :: ns => .cons n (NodeList.ofList ns)

/-- Element with only a tag, classes and children. -/
def el (tag : String) (classes : List String) (ch : List Node) : Node :=
  .elem tag classes none none (.ofList ch)

/-- Element that also carries an `id` attribute. -/
def elId (tag : String) (classes : List String) (idAttr : String)
    (ch : List Node) : Node :=
  .elem tag classes (some idAttr) none (.ofList ch)

/-- Element that also carries a `fill` attribute. -/
def elFill (tag : String) (classes : List String) (fillAttr : String)
    (ch : List Node) : Node :=
  .elem tag classes none (some fillAttr) (.ofList ch)

mutual
/-- Preorder (document-order) flattening of a subtree; BeautifulSoup's
`next_elements` of a node is exactly the part of the whole document's
preorder list that follows the node's own position. -/
def preorder : Node → List Node
  | .text s => [.text s]
  | .elem t c i f ch => .elem t c i f ch :: preorderList ch
def preorderList : NodeList → List Node
  | .nil => []
  | .cons n ns => preorder n ++ preorderList ns
end

/-- All proper descendants of a node, in document order (the search space of
`select_one` / `find_all` / `find` on that node). -/
def descendants (n : Node) : List Node :=
  match n with
  | .text _ => []
  | .elem _ _ _ _ ch => preorderList ch

mutual
/-- The text fragments of a subtree, in document order. -/
def textFragments : Node → List String
  | .text s => [s]
  | .elem _ _ _ _ ch => textFragmentsList ch
def textFragmentsList : NodeList → List String
  | .nil => []
  | .cons n ns => textFragments n ++ textFragmentsList ns
end

/-! ## Python string primitives -/

/-- Python `s.strip()`: drop whitespace from both ends. -/
def pyStrip (s : String) : String :=
  String.mk
    (((s.data.dropWhile Char.isWhitespace).reverse.dropWhile
      Char.isWhitespace).reverse)

/-- Python `s.lower()`. -/
def pyLower (s : String) : String := String.mk (s.data.map Char.toLower)

/-- Python `s.startswith(pat)`. -/
def strStartsWith (s pat : String) : Bool := pat.data.isPrefixOf s.data

/-- BeautifulSoup `get_text(sep, strip=True)`: strip every text fragment,
drop the ones that become empty, join with `sep`. -/
def getTextStrip (sep : String) (n : Node) : String :=
  String.intercalate sep
    (((textFragments n).map pyStrip).filter (fun s => s ≠ ""))

/-- BeautifulSoup `Tag.string`: the single string child, following through
single-child wrappers; `none` when the tag has zero or several children. -/
def nodeString : Node → Option String
  | .text s => some s
  | .elem _ _ _ _ (.cons c .nil) => nodeString c
  | .elem _ _ _ _ _ => none

def Node.tagName : Node → String
  | .text _ => ""
  | .elem t _ _ _ _ => t

def Node.idValue : Node → Option String
  | .text _ => none
  | .elem _ _ i _ _ => i

def Node.fillValue : Node → Option String
  | .text _ => none
  | .elem _ _ _ f _ => f

/-- Class-attribute membership (text nodes match no selector). -/
def hasClass (n : Node) (c : String) : Bool :=
  match n with
  | .text _ => false
  | .elem _ cs _ _ _ => cs.contains c

/-! ## The structural selectors used by `extract_room_data` -/

/-- CSS selector `.js-rt-block-row.e2e-hprt-table-row` (line 35). -/
def isRowElem (n : Node) : Bool :=
  hasClass n "js-rt-block-row" && hasClass n "e2e-hprt-table-row"

/-- CSS selector `.hprt-roomtype-icon-link` (line 40). -/
def isRoomTypeLink (n : Node) : Bool := hasClass n "hprt-roomtype-icon-link"

/-- CSS selector `.hprt-roomtype-link` (line 49). -/
def isDescriptionLink (n : Node) : Bool := hasClass n "hprt-roomtype-link"

/-- CSS selector `.prco-valign-middle-helper` (line 53). -/
def isPriceElem (n : Node) : Bool := hasClass n "prco-valign-middle-helper"

/-- CSS selector `.hprt-conditions-ntf` (line 57). -/
def isPolicyElem (n : Node) : Bool := hasClass n "hprt-conditions-ntf"

/-- CSS selector `.hprt-occupancy-occupancy-info` (line 61). -/
def isOccupancyElem (n : Node) : Bool :=
  hasClass n "hprt-occupancy-occupancy-info"

/-- CSS selector `select.hprt-nos-select` (line 67). -/
def isQtySelect (n : Node) : Bool :=
  n.tagName == "select" && hasClass n "hprt-nos-select"

/-- `find_all('option')` name filter (lines 70, 75). -/
def isOptionElem (n : Node) : Bool := n.tagName == "option"

/-- CSS selector `.bk-icon.-streamline-food_coffee` (line 91). -/
def isBreakfastIcon (n : Node) : Bool :=
  hasClass n "bk-icon" && hasClass n "-streamline-food_coffee"

/-- `find_next('template', id=lambda x: x and x.startswith('policyModal_'))`
(line 88): tag name `template` with an `id` attribute carrying the prefix. -/
def isPolicyModalTemplate (n : Node) : Bool :=
  n.tagName == "template" &&
    (match n.idValue with
     | some x => strStartsWith x "policyModal_"
     | none => false)

/-- `find('h3', string='Meals')` matcher (line 105). -/
def isMealsHeading (n : Node) : Bool :=
  n.tagName == "h3" && nodeString n == some "Meals"

/-- `find_next('div', class_='bui-list__description')` matcher (line 107). -/
def isMealsDescription (n : Node) : Bool :=
  n.tagName == "div" && hasClass n "bui-list__description"

/-- `select_one`: first matching proper descendant in document order. -/
def selectOne (n : Node) (p : Node → Bool) : Option Node :=
  (descendants n).find? p

/-- `find_next` from preorder position `start - 1`: the first match among the
elements at preorder positions `≥ start` of the whole document, together with
its position. -/
def findNextFrom (flat : List Node) (start : Nat) (p : Node → Bool) :
    Option (Nat × Node) :=
  ((flat.drop start).enum.find? (fun q => p q.2)).map
    (fun q => (start + q.1, q.2))

/-- `str.split(c)` on the character list: at least one segment, a new segment
after every occurrence of `c`. -/
def splitChar (c : Char) : List Char → List (List Char)
  | [] => [[]]
  | a :: as =>
    match splitChar c as with
    | [] => [[a]]
    | g :: gs => if a = c then [] :: g :: gs else (a :: g) :: gs

/-- Python `s.split(c)`. -/
def strSplit (s : String) (c : Char) : List String :=
  (splitChar c s.data).map (fun l => String.mk l)

/-- Python `pat in s` (substring containment). -/
def listContains (pat : List Char) : List Char → Bool
  | [] => pat.isEmpty
  | a :: as => pat.isPrefixOf (a :: as) || listContains pat as

/-- Python `s.replace(c, '')` for a single character. -/
def removeChar (s : String) (c : Char) : String :=
  String.mk (s.data.filter (fun a => a ≠ c))

/-! ## Records -/

/-- Values stored in the row dictionary: strings, or the integer
`available_units`. -/
inductive Value where
  | s (v : String)
  | i (v : Int)
deriving DecidableEq, Repr

/-- The emitted row dictionary, as an insertion-ordered key/value list
(Python dicts preserve insertion order, and one key can be skipped by the
code, so a fixed structure type would be unfaithful). -/
abbrev Record := List (String × Value)

/-- Dictionary lookup. -/
def getField (r : Record) (k : String) : Option Value :=
  (r.find? (fun p => p.1 == k)).map (fun p => p.2)

/-! ## The extractor, line by line -/

/-- Lines 40-41: the room-type label text scoped to the row, `"N/A"` when the
label element is absent. -/
def labelOf (row : Node) : String :=
  match selectOne row isRoomTypeLink with
  | some e => getTextStrip "" e
  | none => "N/A"

/-- Lines 40-46: room type with carry-forward.  Returns the row's
`room_type` and the updated `current_room_type`.  Referencing
`current_room_type` before its first assignment raises `UnboundLocalError`,
modelled as `Except.error`. -/
def roomTypeStep (row : Node) (cur : Option String) :
    Except Unit (String × Option String) :=
  let room_type := labelOf row
  if room_type ≠ "N/A" then .ok (room_type, some room_type)
  else
    match cur with
    | some c => .ok (c, cur)
    | none => .error ()

/-- Lines 49-50: room description (`get_text(' ', strip=True)`). -/
def descriptionOf (row : Node) : String :=
  match selectOne row isDescriptionLink with
  | some e => getTextStrip " " e
  | none => "N/A"

/-- Lines 53-54: price display text. -/
def priceOf (row : Node) : String :=
  match selectOne row isPriceElem with
  | some e => getTextStrip "" e
  | none => "N/A"

/-- Lines 57-58: cancellation policy. -/
def cancellationOf (row : Node) : String :=
  match selectOne row isPolicyElem with
  | some e => getTextStrip "" e
  | none => "N/A"

/-- Lines 61-62: the raw occupancy text (sentinel when the element is
absent; the sentinel then flows through the split below unchanged). -/
def occupancyRaw (row : Node) : String :=
  match selectOne row isOccupancyElem with
  | some e => getTextStrip "" e
  | none => "N/A"

/-- The segment after the last `:` of a string (`s.split(':')[-1]`). -/
def afterLastColon (s : String) : String := (strSplit s ':').getLastD ""

/-- Line 64: `room_data['max_occupancy'].split(':')[-1].strip()`. -/
def maxOccupancyOf (row : Node) : String :=
  pyStrip (afterLastColon (occupancyRaw row))

/-- Lines 67-85: the quantity selector.  Returns
`(available_units, price_per_unit)`, where `none` in the second component
means the `price_per_unit` key is never assigned (the branch
`available_units > 0` and no `'$'` in the last option's text has no `else`).
`options[-1]` on an empty option list raises `IndexError`, modelled as
`Except.error`.  (`last_option` is a bs4 `Tag`, which is always truthy, so
`if last_option and available_units > 0` reduces to the numeric test.) -/
def unitsStep (row : Node) : Except Unit (Int × Option String) :=
  match selectOne row isQtySelect with
  | some select_elem =>
    let opts := (descendants select_elem).filter isOptionElem
    let available_units : Int := (opts.length : Int) - 1
    match opts.getLast? with
    | none => .error ()
    | some last_option =>
      if available_units > 0 then
        let option_text := getTextStrip "" last_option
        if option_text.data.contains '$' then
          .ok (available_units,
            some (removeChar (((strSplit option_text '$').getLastD "" |>
              (strSplit · ')')).headD "") ','))
        else
          .ok (available_units, none)
      else
        .ok (available_units, some "N/A")
  | none => .ok (0, some "N/A")

/-- Lines 91-100: the inline breakfast-icon signal. -/
def inlineBreakfastSignal (row : Node) : String :=
  match selectOne row isBreakfastIcon with
  | some icon =>
    if pyLower (icon.fillValue.getD "") == "#008009" then "Yes" else "No"
  | none => "No"

/-- Lines 87-88 and 102-120: locate the policy modal by `find_next` from the
row's preorder position `i` and compute
`(breakfast_included, meals_included)` from the initial inline signal. -/
def panelStep (flat : List Node) (i : Nat) (breakfast0 : String) :
    String × String :=
  match findNextFrom flat (i + 1) isPolicyModalTemplate with
  | some (j, policy_modal) =>
    match (descendants policy_modal).enum.find? (fun q => isMealsHeading q.2) with
    | some (m, _) =>
      match findNextFrom flat (j + 1 + m + 1) isMealsDescription with
      | some (_, meals_info) =>
        let meals_text := getTextStrip "" meals_info
        let b :=
          if listContains "breakfast".data (pyLower meals_text).data &&
              breakfast0 == "No" then "Yes" else breakfast0
        (b, meals_text)
      | none => (breakfast0, "Not specified")
    | none => (breakfast0, "No meals included")
  | none => (breakfast0, "Not specified")

/-- Lines 38-122: the row dictionary, in key insertion order; the
`price_per_unit` key is present only when the code assigns it. -/
def buildRecord (room_type description price cancellation_policy
    max_occupancy : String) (available_units : Int)
    (price_per_unit : Option String)
    (breakfast_included meals_included : String) : Record :=
  [("room_type", .s room_type), ("description", .s description),
   ("price", .s price), ("cancellation_policy", .s cancellation_policy),
   ("max_occupancy", .s max_occupancy),
   ("available_units", .i available_units)] ++
  (match price_per_unit with
   | some p => [("price_per_unit", Value.s p)]
   | none => []) ++
  [("breakfast_included", .s breakfast_included),
   ("meals_included", .s meals_included)]

/-- One iteration of the row loop (lines 39-122).  `i` is the row's position
in the document preorder `flat`, `cur` the carried `current_room_type`. -/
def extractRow (flat : List Node) (i : Nat) (row : Node)
    (cur : Option String) : Except Unit (Record × Option String) :=
  match roomTypeStep row cur with
  | .error _ => .error ()
  | .ok (room_type, cur') =>
    match unitsStep row with
    | .error _ => .error ()
    | .ok (available_units, price_per_unit) =>
      let bm := panelStep flat i (inlineBreakfastSignal row)
      .ok (buildRecord room_type (descriptionOf row) (priceOf row)
            (cancellationOf row) (maxOccupancyOf row) available_units
            price_per_unit bm.1 bm.2, cur')

/-- The `for row in room_rows` loop with the carried `current_room_type`. -/
def extractLoop (flat : List Node) :
    List (Nat × Node) → Option String → Except Unit (List Record)
  | [], _ => .ok []
  | (i, row) :: rest, cur =>
    match extractRow flat i row cur with
    | .error _ => .error ()
    | .ok (rcd, cur') =>
      match extractLoop flat rest cur' with
      | .error _ => .error ()
      | .ok rs => .ok (rcd :: rs)

/-- The whole-document preorder list (a document is the soup's list of
top-level nodes). -/
def docFlat (doc : List Node) : List Node := doc.flatMap preorder

/-- Line 35: `soup.select('.js-rt-block-row.e2e-hprt-table-row')`, each row
with its preorder position. -/
def rowsOf (doc : List Node) : List (Nat × Node) :=
  (docFlat doc).enum.filter (fun p => isRowElem p.2)

/-- Lines 22-124: `extract_room_data` on an already-loaded tree. -/
def extract_room_data (doc : List Node) : Except Unit (List Record) :=
  extractLoop (docFlat doc) (rowsOf doc) none

/-- Guard: if the row has a quantity selector, it contains at least one
option element. -/
def selectorNonempty (row : Node) : Bool :=
  match selectOne row isQtySelect with
  | some sel => !((descendants sel).filter isOptionElem).isEmpty
  | none => true

/-! ## The two breakfast signals and the meals text, as the spec reads them -/

/-- The meals text the panel search resolves for the row at preorder
position `i`: the text of the first description block following the Meals
heading of the first policy modal following the row, `none` when any link of
that chain is missing. -/
def panelMealsText (flat : List Node) (i : Nat) : Option String :=
  match findNextFrom flat (i + 1) isPolicyModalTemplate with
  | some (j, policy_modal) =>
    match (descendants policy_modal).enum.find? (fun q => isMealsHeading q.2) with
    | some (m, _) =>
      match findNextFrom flat (j + 1 + m + 1) isMealsDescription with
      | some (_, meals_info) => some (getTextStrip "" meals_info)
      | none => none
    | none => none
  | none => none

/-- The spec's monotonic-OR reading of the breakfast flag: `"Yes"` whenever
the inline icon signal says so, otherwise `"Yes"` exactly when the panel
meals text contains `"breakfast"` case-insensitively. -/
def breakfastOr (flat : List Node) (i : Nat) (row : Node) : String :=
  if inlineBreakfastSignal row = "Yes" then "Yes"
  else
    match panelMealsText flat i with
    | some t =>
      if listContains "breakfast".data (pyLower t).data then "Yes" else "No"
    | none => "No"

/-- The spec's case enumeration for `meals_included`: no panel →
`"Not specified"`, panel without Meals heading → `"No meals included"`,
Meals heading without a following description block → `"Not specified"`,
otherwise the description block's text. -/
def mealsIncludedSpec (flat : List Node) (i : Nat) : String :=
  match findNextFrom flat (i + 1) isPolicyModalTemplate with
  | none => "Not specified"
  | some (j, policy_modal) =>
    match (descendants policy_modal).enum.find? (fun q => isMealsHeading q.2) with
    | none => "No meals included"
    | some (m, _) =>
      match findNextFrom flat (j + 1 + m + 1) isMealsDescription with
      | none => "Not specified"
      | some (_, meals_info) => getTextStrip "" meals_info

/-- The spec's formula for `available_units`: the number of option elements
minus one when a quantity selector is present, 0 when it is absent. -/
def availableUnitsSpec (row : Node) : Int :=
  match selectOne row isQtySelect with
  | some sel => (((descendants sel).filter isOptionElem).length : Int) - 1
  | none => 0

/-- Whether a pass returned a record list rather than raising. -/
def isOkB : Except Unit (List Record) → Bool
  | .ok _ => true
  | .error _ => false

/-! ## Concrete example documents -/

/-- A fully populated row: label, description, price, policy, occupancy,
quantity selector with options `0 / 1 ($100) / 2 ($6,584)`, green breakfast
icon. -/
def exRow1 : Node :=
  el "div" ["js-rt-block-row", "e2e-hprt-table-row"]
    [ el "a" ["hprt-roomtype-icon-link"] [.text "Deluxe Suite"],
      el "a" ["hprt-roomtype-link"] [.text "Spacious suite with sea view"],
      el "div" ["prco-valign-middle-helper"] [.text "$200"],
      el "div" ["hprt-conditions-ntf"] [.text "Free cancellation"],
      el "div" ["hprt-occupancy-occupancy-info"] [.text "Occupancy: 2 adults"],
      el "select" ["hprt-nos-select"]
        [ el "option" [] [.text "0"],
          el "option" [] [.text "1 ($100)"],
          el "option" [] [.text "2 ($6,584)"] ],
      elFill "span" ["bk-icon", "-streamline-food_coffee"] "#008009" [] ]

/-- The policy modal following `exRow1`. -/
def exTmpl1 : Node :=
  elId "template" [] "policyModal_101"
    [ el "h3" [] [.text "Meals"],
      el "div" ["bui-list__description"] [.text "Breakfast included for 2"] ]

/-- A sparse second row: no room-type label (inherits), only a price. -/
def exRow2 : Node :=
  el "div" ["js-rt-block-row", "e2e-hprt-table-row"]
    [ el "div" ["prco-valign-middle-helper"] [.text "$180"] ]

/-- A well-formed two-row document. -/
def exDocOk : List Node := [exRow1, exTmpl1, exRow2]

/-- A one-row document whose single (first) row has no room-type label. -/
def exDocFirstNoLabel : List Node :=
  [el "div" ["js-rt-block-row", "e2e-hprt-table-row"] []]

/-- A one-row document whose quantity selector contains no option at all. -/
def exDocEmptySelect : List Node :=
  [el "div" ["js-rt-block-row", "e2e-hprt-table-row"]
    [ el "a" ["hprt-roomtype-icon-link"] [.text "Standard Room"],
      el "select" ["hprt-nos-select"] [] ]]

/-- A one-row document whose selector has options `0 / 1` where the last
option's text carries no currency marker. -/
def exDocNoCurrency : List Node :=
  [el "div" ["js-rt-block-row", "e2e-hprt-table-row"]
    [ el "a" ["hprt-roomtype-icon-link"] [.text "Standard Room"],
      el "select" ["hprt-nos-select"]
        [ el "option" [] [.text "0"],
          el "option" [] [.text "1"] ] ]]

/-- Two rows with no panel of their own, followed by one policy modal that
sits after the second row. -/
def exDoc10Row1 : Node :=
  el "div" ["js-rt-block-row", "e2e-hprt-table-row"]
    [el "a" ["hprt-roomtype-icon-link"] [.text "Single"]]

def exDoc10Row2 : Node :=
  el "div" ["js-rt-block-row", "e2e-hprt-table-row"]
    [el "a" ["hprt-roomtype-icon-link"] [.text "Double"]]

def exDoc10Tmpl : Node :=
  elId "template" [] "policyModal_2"
    [ el "h3" [] [.text "Meals"],
      el "div" ["bui-list__description"] [.text "Breakfast included for 2"] ]

def exDoc10 : List Node := [exDoc10Row1, exDoc10Row2, exDoc10Tmpl]

/-! ## Computed outputs for the example documents -/

/-- `extract_room_data exDocOk` output. -/
def exDocOkRecords : List Record :=
  [[("room_type", Value.s "Deluxe Suite"),
    ("description", Value.s "Spacious suite with sea view"),
    ("price", Value.s "$200"),
    ("cancellation_policy", Value.s "Free cancellation"),
    ("max_occupancy", Value.s "2 adults"),
    ("available_units", Value.i 2),
    ("price_per_unit", Value.s "6584"),
    ("breakfast_included", Value.s "Yes"),
    ("meals_included", Value.s "Breakfast included for 2")],
   [("room_type", Value.s "Deluxe Suite"),
    ("description", Value.s "N/A"),
    ("price", Value.s "$180"),
    ("cancellation_policy", Value.s "N/A"),
    ("max_occupancy", Value.s "N/A"),
    ("available_units", Value.i 0),
    ("price_per_unit", Value.s "N/A"),
    ("breakfast_included", Value.s "No"),
    ("meals_included", Value.s "Not specified")]]

/-- `extract_room_data exDocNoCurrency` output: note the missing
`price_per_unit` key. -/
def exDocNoCurrencyRecord : Record :=
  [("room_type", Value.s "Standard Room"),
   ("description", Value.s "N/A"),
   ("price", Value.s "N/A"),
   ("cancellation_policy", Value.s "N/A"),
   ("max_occupancy", Value.s "N/A"),
   ("available_units", Value.i 1),
   ("breakfast_included", Value.s "No"),
   ("meals_included", Value.s "Not specified")]

def exDoc10Rec1 : Record :=
  [("room_type", Value.s "Single"),
   ("description", Value.s "N/A"),
   ("price", Value.s "N/A"),
   ("cancellation_policy", Value.s "N/A"),
   ("max_occupancy", Value.s "N/A"),
   ("available_units", Value.i 0),
   ("price_per_unit", Value.s "N/A"),
   ("breakfast_included", Value.s "Yes"),
   ("meals_included", Value.s "Breakfast included for 2")]

def exDoc10Rec2 : Record :=
  [("room_type", Value.s "Double"),
   ("description", Value.s "N/A"),
   ("price", Value.s "N/A"),
   ("cancellation_policy", Value.s "N/A"),
   ("max_occupancy", Value.s "N/A"),
   ("available_units", Value.i 0),
   ("price_per_unit", Value.s "N/A"),
   ("breakfast_included", Value.s "Yes"),
   ("meals_included", Value.s "Breakfast included for 2")]

/-! ## Evaluation of the extractor on the example documents -/

theorem extract_exDocOk : extract_room_data exDocOk = .ok exDocOkRecords := rfl

theorem extract_exDocNoCurrency :
    extract_room_data exDocNoCurrency = .ok [exDocNoCurrencyRecord] := rfl

theorem extract_exDoc10 :
    extract_room_data exDoc10 = .ok [exDoc10Rec1, exDoc10Rec2] := rfl

/-! ## Helper lemmas about the extraction steps -/

theorem roomTypeStep_ok (row : Node) (cur : Option String) (rt : String)
    (cur' : Option String) (h : roomTypeStep row cur = .ok (rt, cur')) :
    cur' = some rt ∧ (labelOf row ≠ "N/A" → rt = labelOf row) ∧
      (labelOf row = "N/A" → cur = some rt) := by
  unfold roomTypeStep at h
  by_cases hl : labelOf row = "N/A"
  · rw [if_neg (by simp [hl])] at h
    cases cur with
    | none => exact absurd h (by simp)
    | some c =>
      simp only [Except.ok.injEq, Prod.mk.injEq] at h
      obtain ⟨h1, h2⟩ := h
      subst h1
      subst h2
      exact ⟨rfl, fun hn => absurd hl hn, fun _ => rfl⟩
  · rw [if_pos (by simp [hl])] at h
    simp only [Except.ok.injEq, Prod.mk.injEq] at h
    obtain ⟨h1, h2⟩ := h
    subst h1
    subst h2
    exact ⟨rfl, fun _ => rfl, fun he => absurd he hl⟩

theorem roomTypeStep_error (row : Node) (cur : Option String)
    (h : roomTypeStep row cur = .error ()) :
    labelOf row = "N/A" ∧ cur = none := by
  unfold roomTypeStep at h
  by_cases hl : labelOf row = "N/A"
  · rw [if_neg (by simp [hl])] at h
    cases cur with
    | none => exact ⟨hl, rfl⟩
    | some c => exact absurd h (by simp)
  · rw [if_pos (by simp [hl])] at h
    exact absurd h (by simp)

/-- Successful `unitsStep` outcomes, described by the selector's shape. -/
theorem unitsStep_ok (row : Node) (au : Int) (ppu : Option String)
    (h : unitsStep row = .ok (au, ppu)) :
    (selectOne row isQtySelect = none → au = 0 ∧ ppu = some "N/A") ∧
    (∀ sel, selectOne row isQtySelect = some sel →
      ((descendants sel).filter isOptionElem ≠ [] ∧
       au = ((descendants sel).filter isOptionElem).length - 1)) := by
  unfold unitsStep at h
  cases hs : selectOne row isQtySelect with
  | none =>
    rw [hs] at h
    simp only [Except.ok.injEq, Prod.mk.injEq] at h
    exact ⟨fun _ => ⟨h.1.symm, h.2.symm⟩,
      fun sel hsel => absurd hsel (by simp)⟩
  | some sel =>
    simp only [hs] at h
    refine ⟨fun hn => absurd hn (by simp), fun sel' hsel' => ?_⟩
    rw [Option.some.injEq] at hsel'
    subst hsel'
    split at h
    · simp at h
    · rename_i lastOpt hl
      have hne : List.filter isOptionElem (descendants sel) ≠ [] := fun he => by
        rw [he] at hl
        simp at hl
      refine ⟨hne, ?_⟩
      split at h
      · split at h
        all_goals simp only [Except.ok.injEq, Prod.mk.injEq] at h
        · exact h.1.symm
        · exact h.1.symm
      · simp only [Except.ok.injEq, Prod.mk.injEq] at h
        exact h.1.symm

/-- A successful `extractRow` outcome decomposes into its steps. -/
theorem extractRow_ok (flat : List Node) (i : Nat) (row : Node)
    (cur : Option String) (rcd : Record) (cur' : Option String)
    (h : extractRow flat i row cur = .ok (rcd, cur')) :
    ∃ rt au ppu, roomTypeStep row cur = .ok (rt, cur') ∧
      unitsStep row = .ok (au, ppu) ∧
      rcd = buildRecord rt (descriptionOf row) (priceOf row)
        (cancellationOf row) (maxOccupancyOf row) au ppu
        (panelStep flat i (inlineBreakfastSignal row)).1
        (panelStep flat i (inlineBreakfastSignal row)).2 := by
  unfold extractRow at h
  split at h
  · simp at h
  · rename_i rt c' hrt
    split at h
    · simp at h
    · rename_i au ppu hu
      simp only [Except.ok.injEq, Prod.mk.injEq] at h
      obtain ⟨hrec, hc⟩ := h
      subst hc
      exact ⟨rt, au, ppu, hrt, hu, hrec.symm⟩

/-! ## Field lookups on a built record -/

theorem getField_room_type (a b c d e : String) (u : Int) (p : Option String)
    (f g : String) :
    getField (buildRecord a b c d e u p f g) "room_type" = some (.s a) := by
  cases p <;> rfl

theorem getField_description (a b c d e : String) (u : Int) (p : Option String)
    (f g : String) :
    getField (buildRecord a b c d e u p f g) "description" = some (.s b) := by
  cases p <;> rfl

theorem getField_price (a b c d e : String) (u : Int) (p : Option String)
    (f g : String) :
    getField (buildRecord a b c d e u p f g) "price" = some (.s c) := by
  cases p <;> rfl

theorem getField_cancellation (a b c d e : String) (u : Int)
    (p : Option String) (f g : String) :
    getField (buildRecord a b c d e u p f g) "cancellation_policy" =
      some (.s d) := by
  cases p <;> rfl

theorem getField_max_occupancy (a b c d e : String) (u : Int)
    (p : Option String) (f g : String) :
    getField (buildRecord a b c d e u p f g) "max_occupancy" = some (.s e) := by
  cases p <;> rfl

theorem getField_available_units (a b c d e : String) (u : Int)
    (p : Option String) (f g : String) :
    getField (buildRecord a b c d e u p f g) "available_units" =
      some (.i u) := by
  cases p <;> rfl

theorem getField_price_per_unit (a b c d e : String) (u : Int)
    (p : Option String) (f g : String) :
    getField (buildRecord a b c d e u p f g) "price_per_unit" =
      p.map Value.s := by
  cases p <;> rfl

theorem getField_breakfast (a b c d e : String) (u : Int) (p : Option String)
    (f g : String) :
    getField (buildRecord a b c d e u p f g) "breakfast_included" =
      some (.s f) := by
  cases p <;> rfl

theorem getField_meals (a b c d e : String) (u : Int) (p : Option String)
    (f g : String) :
    getField (buildRecord a b c d e u p f g) "meals_included" =
      some (.s g) := by
  cases p <;> rfl

/-! ## Loop lemmas -/

/-- A successful pass emits exactly one record per discovered row. -/
theorem extractLoop_length (flat : List Node) :
    ∀ (rows : List (Nat × Node)) (cur : Option String) (recs : List Record),
      extractLoop flat rows cur = .ok recs → recs.length = rows.length := by
  intro rows
  induction rows with
  | nil =>
    intro cur recs h
    unfold extractLoop at h
    simp only [Except.ok.injEq] at h
    rw [← h]
    rfl
  | cons p rest ih =>
    intro cur recs h
    obtain ⟨i, row⟩ := p
    unfold extractLoop at h
    split at h
    · simp at h
    · rename_i rcd cur' hrow
      split at h
      · simp at h
      · rename_i rs hrest
        simp only [Except.ok.injEq] at h
        rw [← h]
        simp [ih cur' rs hrest]

/-- Any per-row consequence of a successful `extractRow` holds of every
emitted record, paired with its source row. -/
theorem extractLoop_all (flat : List Node) (P : Record → Nat × Node → Prop)
    (hP : ∀ i row cur rcd cur',
      extractRow flat i row cur = .ok (rcd, cur') → P rcd (i, row)) :
    ∀ (rows : List (Nat × Node)) (cur : Option String) (recs : List Record),
      extractLoop flat rows cur = .ok recs →
      ∀ k, k < rows.length →
        P (recs.getD k []) (rows.getD k (0, Node.text "")) := by
  intro rows
  induction rows with
  | nil =>
    intro cur recs h k hk
    simp at hk
  | cons p rest ih =>
    intro cur recs h k hk
    obtain ⟨i, row⟩ := p
    unfold extractLoop at h
    split at h
    · simp at h
    · rename_i rcd cur' hrow
      split at h
      · simp at h
      · rename_i rs hrest
        simp only [Except.ok.injEq] at h
        subst h
        cases k with
        | zero => exact hP i row cur rcd cur' hrow
        | succ k' =>
          simp only [List.getD_cons_succ]
          exact ih cur' rs hrest k' (by simpa using hk)

/-! ## Totality of a pass under the two guard conditions -/

theorem roomTypeStep_some_ok (row : Node) (c : String) :
    ∃ rt, roomTypeStep row (some c) = .ok (rt, some rt) := by
  unfold roomTypeStep
  by_cases hl : labelOf row = "N/A"
  · rw [if_neg (by simp [hl])]
    exact ⟨c, rfl⟩
  · rw [if_pos (by simp [hl])]
    exact ⟨labelOf row, rfl⟩

theorem roomTypeStep_label_ok (row : Node) (cur : Option String)
    (hl : labelOf row ≠ "N/A") :
    roomTypeStep row cur = .ok (labelOf row, some (labelOf row)) := by
  unfold roomTypeStep
  rw [if_pos (by simp [hl])]

theorem unitsStep_total (row : Node) (hsel : selectorNonempty row = true) :
    ∃ au ppu, unitsStep row = .ok (au, ppu) := by
  unfold unitsStep
  unfold selectorNonempty at hsel
  cases hs : selectOne row isQtySelect with
  | none =>
    simp only [hs]
    exact ⟨0, some "N/A", rfl⟩
  | some sel =>
    rw [hs] at hsel
    have hne : (descendants sel).filter isOptionElem ≠ [] := by
      simpa using hsel
    simp only [hs]
    cases hgl : ((descendants sel).filter isOptionElem).getLast? with
    | none =>
      exact absurd (List.getLast?_eq_none_iff.mp hgl) hne
    | some lastOpt =>
      simp only [hgl]
      by_cases hgt :
          ((((descendants sel).filter isOptionElem).length : Int) - 1) > 0
      · rw [if_pos hgt]
        by_cases hd : (getTextStrip "" lastOpt).data.contains '$' = true
        · rw [if_pos hd]
          exact ⟨_, _, rfl⟩
        · rw [if_neg hd]
          exact ⟨_, _, rfl⟩
      · rw [if_neg hgt]
        exact ⟨_, _, rfl⟩

theorem extractRow_total (flat : List Node) (i : Nat) (row : Node)
    (c : String) (hsel : selectorNonempty row = true) :
    ∃ rcd rt, extractRow flat i row (some c) = .ok (rcd, some rt) := by
  obtain ⟨rt, hrt⟩ := roomTypeStep_some_ok row c
  obtain ⟨au, ppu, hu⟩ := unitsStep_total row hsel
  have hrow : extractRow flat i row (some c) =
      .ok (buildRecord rt (descriptionOf row) (priceOf row)
        (cancellationOf row) (maxOccupancyOf row) au ppu
        (panelStep flat i (inlineBreakfastSignal row)).1
        (panelStep flat i (inlineBreakfastSignal row)).2, some rt) := by
    unfold extractRow
    simp only [hrt, hu]
  exact ⟨_, rt, hrow⟩

theorem extractLoop_total (flat : List Node) :
    ∀ (rows : List (Nat × Node)) (c : String),
      (∀ p ∈ rows, selectorNonempty p.2 = true) →
      ∃ recs, extractLoop flat rows (some c) = .ok recs := by
  intro rows
  induction rows with
  | nil =>
    intro c _
    exact ⟨[], rfl⟩
  | cons p rest ih =>
    intro c hsel
    obtain ⟨i, row⟩ := p
    obtain ⟨rcd, rt, hrow⟩ :=
      extractRow_total flat i row c (hsel (i, row) (by simp))
    obtain ⟨recs, hrecs⟩ := ih rt (fun q hq => hsel q (by simp [hq]))
    exact ⟨rcd :: recs, by simp only [extractLoop, hrow, hrecs]⟩

/-! ## The carried room type along a pass -/

/-- Invariant of the loop: every emitted record's `room_type` is non-sentinel;
it is the row's own label when one is present, and otherwise the value carried
into the row (`cur` for the first row, the previous record's `room_type`
afterwards). -/
theorem extractLoop_roomType (flat : List Node) :
    ∀ (rows : List (Nat × Node)) (cur : Option String) (recs : List Record),
      extractLoop flat rows cur = .ok recs →
      (∀ c, cur = some c → c ≠ "N/A") →
      ∀ k, k < rows.length →
        ∃ rt, getField (recs.getD k []) "room_type" = some (Value.s rt) ∧
          rt ≠ "N/A" ∧
          (labelOf (rows.getD k (0, Node.text "")).2 ≠ "N/A" →
            rt = labelOf (rows.getD k (0, Node.text "")).2) ∧
          (labelOf (rows.getD k (0, Node.text "")).2 = "N/A" →
            (k = 0 → cur = some rt) ∧
            (∀ j, k = j + 1 →
              getField (recs.getD j []) "room_type" = some (Value.s rt))) := by
  intro rows
  induction rows with
  | nil =>
    intro cur recs h hcur k hk
    simp at hk
  | cons p rest ih =>
    intro cur recs h hcur k hk
    obtain ⟨i, row⟩ := p
    unfold extractLoop at h
    split at h
    · simp at h
    · rename_i rcd cur' hrow
      split at h
      · simp at h
      · rename_i rs hrest
        simp only [Except.ok.injEq] at h
        subst h
        obtain ⟨rt0, au, ppu, hrt, hu, hrec⟩ :=
          extractRow_ok flat i row cur rcd cur' hrow
        obtain ⟨hcur', hlab, hinh⟩ := roomTypeStep_ok row cur rt0 cur' hrt
        have hrt0 : rt0 ≠ "N/A" := by
          by_cases hl : labelOf row = "N/A"
          · exact hcur rt0 (hinh hl)
          · rw [hlab hl]
            exact hl
        have hget : getField rcd "room_type" = some (Value.s rt0) := by
          rw [hrec]
          exact getField_room_type _ _ _ _ _ _ _ _ _
        have hcurOk' : ∀ c, cur' = some c → c ≠ "N/A" := by
          intro c hc
          rw [hcur'] at hc
          cases hc
          exact hrt0
        cases k with
        | zero =>
          refine ⟨rt0, hget, hrt0, fun hl => hlab hl, fun hl => ?_⟩
          exact ⟨fun _ => hinh hl, fun j hj => by cases hj⟩
        | succ k' =>
          have hk' : k' < rest.length := by simpa using hk
          obtain ⟨rt, h1, h2, h3, h4⟩ := ih cur' rs hrest hcurOk' k' hk'
          refine ⟨rt, by simpa using h1, h2, ?_, ?_⟩
          · intro hl
            exact h3 (by simpa using hl)
          · intro hl
            obtain ⟨h40, h4s⟩ := h4 (by simpa using hl)
            refine ⟨fun h0 => (by cases h0), fun j hj => ?_⟩
            have hj' : k' = j := by omega
            subst hj'
            cases k' with
            | zero =>
              have : cur' = some rt := h40 rfl
              rw [hcur'] at this
              cases this
              simpa using hget
            | succ j' =>
              simpa using h4s j' rfl

/-- `panelStep` in terms of the two observers. -/
theorem panelStep_eq (flat : List Node) (i : Nat) (b0 : String) :
    panelStep flat i b0 =
      ((match panelMealsText flat i with
        | some t =>
          if listContains "breakfast".data (pyLower t).data && b0 == "No"
          then "Yes" else b0
        | none => b0),
       mealsIncludedSpec flat i) := by
  cases h1 : findNextFrom flat (i + 1) isPolicyModalTemplate with
  | none => simp [panelStep, panelMealsText, mealsIncludedSpec, h1]
  | some jp =>
    obtain ⟨j, policy_modal⟩ := jp
    cases h2 : (descendants policy_modal).enum.find?
        (fun q => isMealsHeading q.2) with
    | none => simp [panelStep, panelMealsText, mealsIncludedSpec, h1, h2]
    | some mh =>
      obtain ⟨m, hd3⟩ := mh
      cases h3 : findNextFrom flat (j + 1 + m + 1) isMealsDescription with
      | none => simp [panelStep, panelMealsText, mealsIncludedSpec, h1, h2, h3]
      | some pinfo =>
        simp [panelStep, panelMealsText, mealsIncludedSpec, h1, h2, h3]

theorem inlineBreakfastSignal_cases (row : Node) :
    inlineBreakfastSignal row = "Yes" ∨ inlineBreakfastSignal row = "No" := by
  unfold inlineBreakfastSignal
  cases selectOne row isBreakfastIcon with
  | none => exact Or.inr rfl
  | some icon =>
    by_cases hf : pyLower (icon.fillValue.getD "") == "#008009"
    · exact Or.inl (by simp [hf])
    · exact Or.inr (by simp [hf])

/-- The breakfast flag the loop computes is the spec's monotonic OR. -/
theorem panelStep_breakfast (flat : List Node) (i : Nat) (row : Node) :
    (panelStep flat i (inlineBreakfastSignal row)).1 =
      breakfastOr flat i row := by
  rw [panelStep_eq]
  unfold breakfastOr
  rcases inlineBreakfastSignal_cases row with hY | hN
  · rw [hY]
    cases panelMealsText flat i with
    | none => simp
    | some t => simp
  · rw [hN]
    cases panelMealsText flat i with
    | none => simp
    | some t => by_cases hc : listContains "breakfast".data (pyLower t).data <;> simp [hc]

/-! ## Facts about the character-level split -/

theorem splitChar_ne_nil (c : Char) (l : List Char) : splitChar c l ≠ [] := by
  induction l with
  | nil => simp [splitChar]
  | cons a as ih =>
    unfold splitChar
    cases h : splitChar c as with
    | nil => simp
    | cons g gs =>
      by_cases hc : a = c <;> simp [hc]

theorem splitChar_no_sep (c : Char) (l : List Char)
    (h : l.contains c = false) : splitChar c l = [l] := by
  induction l with
  | nil => rfl
  | cons a as ih =>
    simp only [List.contains_cons, Bool.or_eq_false_iff] at h
    unfold splitChar
    rw [ih h.2]
    have hac : ¬ a = c := by
      intro he
      rw [he] at h
      simp at h
    simp [hac]

theorem stringMk_data (s : String) : String.mk s.data = s := by
  cases s
  rfl

/-- When the text contains no colon, the whole string is the single split
segment, so the occupancy fallback returns the whole trimmed text. -/
theorem afterLastColon_no_colon (s : String)
    (h : s.data.contains ':' = false) : afterLastColon s = s := by
  unfold afterLastColon strSplit
  rw [splitChar_no_sep ':' s.data h]
  simp [stringMk_data]

/-! ## Claim C1 -/

/-- C1, counterexample: the claim that no exception crosses a row boundary —
in particular that a pass never aborts because the first row segment lacks a
room-type label or because a quantity selector contains no options — is
false on the code: on a document whose single row has no room-type label the
pass aborts (UnboundLocalError on `current_room_type`), and on a document
whose quantity selector has no option element it aborts as well
(IndexError on `options[-1]`). -/
theorem C1_counterexample :
    extract_room_data exDocFirstNoLabel = .error () ∧
      extract_room_data exDocEmptySelect = .error () :=
  ⟨rfl, rfl⟩

/-- C1, amended: a pass completes — missing sub-elements only degrade the
affected fields — provided the first discovered row segment carries a
room-type label and every quantity selector present contains at least one
option element; in exactly the two excluded situations the pass aborts with
an exception instead. -/
theorem C1_pass_completes (doc : List Node)
    (hfirst : ∀ p ∈ (rowsOf doc).take 1, labelOf p.2 ≠ "N/A")
    (hsel : ∀ p ∈ rowsOf doc, selectorNonempty p.2 = true) :
    isOkB (extract_room_data doc) = true := by
  unfold extract_room_data
  cases hr : rowsOf doc with
  | nil => rfl
  | cons p rest =>
    obtain ⟨i, row⟩ := p
    rw [hr] at hfirst hsel
    have hl : labelOf row ≠ "N/A" := hfirst (i, row) (by simp)
    obtain ⟨au, ppu, hu⟩ := unitsStep_total row (hsel (i, row) (by simp))
    have hrt := roomTypeStep_label_ok row none hl
    have hrow : extractRow (docFlat doc) i row none =
        .ok (buildRecord (labelOf row) (descriptionOf row) (priceOf row)
          (cancellationOf row) (maxOccupancyOf row) au ppu
          (panelStep (docFlat doc) i (inlineBreakfastSignal row)).1
          (panelStep (docFlat doc) i (inlineBreakfastSignal row)).2,
          some (labelOf row)) := by
      unfold extractRow
      simp only [hrt, hu]
    obtain ⟨recs, hrecs⟩ := extractLoop_total (docFlat doc) rest (labelOf row)
      (fun q hq => hsel q (by simp [hq]))
    simp [extractLoop, hrow, hrecs, isOkB]

/-- C1, witness: the amended statement applied to the well-formed two-row
document. -/
theorem C1_witness : isOkB (extract_room_data exDocOk) = true :=
  C1_pass_completes exDocOk (by decide) (by decide)

/-! ## Claim C2 -/

/-- C2, counterexample: "for every input tree, extract returns exactly one
Record per matched row segment" fails: this document has exactly one matched
row segment, yet the pass raises and returns no sequence at all. -/
theorem C2_counterexample :
    (rowsOf exDocFirstNoLabel).length = 1 ∧
      extract_room_data exDocFirstNoLabel = .error () :=
  ⟨rfl, rfl⟩

/-- C2, amended: whenever the pass completes, it returns exactly one record
per matched row segment, in document order — the k-th record is the
(successful) extraction of the k-th matched row. -/
theorem C2_one_record_per_row (doc : List Node) (recs : List Record)
    (h : extract_room_data doc = .ok recs) :
    recs.length = (rowsOf doc).length ∧
    ∀ k, k < recs.length →
      ∃ cur cur',
        extractRow (docFlat doc) ((rowsOf doc).getD k (0, Node.text "")).1
            ((rowsOf doc).getD k (0, Node.text "")).2 cur =
          .ok (recs.getD k [], cur') := by
  have hlen := extractLoop_length (docFlat doc) (rowsOf doc) none recs h
  refine ⟨hlen, fun k hk => ?_⟩
  exact extractLoop_all (docFlat doc)
    (fun rcd q => ∃ cur cur',
      extractRow (docFlat doc) q.1 q.2 cur = .ok (rcd, cur'))
    (fun i row cur rcd cur' hrow => ⟨cur, cur', hrow⟩)
    (rowsOf doc) none recs h k (by omega)

/-- C2, witness: the amended statement applied to the well-formed two-row
document. -/
theorem C2_witness : exDocOkRecords.length = (rowsOf exDocOk).length :=
  (C2_one_record_per_row exDocOk exDocOkRecords extract_exDocOk).1

/-! ## Claim C3 -/

/-- C3: in a completed pass, a record's `room_type` is never the sentinel
(in particular for every record after the first); a row segment with its own
room-type label yields that label, and a row segment lacking one repeats the
previous record's `room_type` — the most recently seen non-sentinel value. -/
theorem C3_roomtype_carry (doc : List Node) (recs : List Record)
    (h : extract_room_data doc = .ok recs) (k : Nat) (hk : k < recs.length) :
    getField (recs.getD k []) "room_type" ≠ some (Value.s "N/A") ∧
    (labelOf ((rowsOf doc).getD k (0, Node.text "")).2 ≠ "N/A" →
      getField (recs.getD k []) "room_type" =
        some (Value.s (labelOf ((rowsOf doc).getD k (0, Node.text "")).2))) ∧
    (0 < k → labelOf ((rowsOf doc).getD k (0, Node.text "")).2 = "N/A" →
      getField (recs.getD k []) "room_type" =
        getField (recs.getD (k - 1) []) "room_type") := by
  have hlen := extractLoop_length (docFlat doc) (rowsOf doc) none recs h
  have hk' : k < (rowsOf doc).length := by omega
  obtain ⟨rt, h1, h2, h3, h4⟩ :=
    extractLoop_roomType (docFlat doc) (rowsOf doc) none recs h
      (fun c hc => by cases hc) k hk'
  refine ⟨?_, ?_, ?_⟩
  · rw [h1]
    simpa using h2
  · intro hl
    rw [h1, h3 hl]
  · intro h0 hl
    obtain ⟨_, h4s⟩ := h4 hl
    rw [h1, h4s (k - 1) (by omega)]

/-- C3, witness: the second record of the well-formed document inherits the
first row's label "Deluxe Suite" because its own row segment has no label. -/
theorem C3_witness :
    getField (exDocOkRecords.getD 1 []) "room_type" ≠ some (Value.s "N/A") ∧
    (labelOf ((rowsOf exDocOk).getD 1 (0, Node.text "")).2 ≠ "N/A" →
      getField (exDocOkRecords.getD 1 []) "room_type" =
        some (Value.s (labelOf ((rowsOf exDocOk).getD 1 (0, Node.text "")).2))) ∧
    (0 < 1 → labelOf ((rowsOf exDocOk).getD 1 (0, Node.text "")).2 = "N/A" →
      getField (exDocOkRecords.getD 1 []) "room_type" =
        getField (exDocOkRecords.getD 0 []) "room_type") :=
  C3_roomtype_carry exDocOk exDocOkRecords extract_exDocOk 1 (by decide)

/-! ## Claim C4 -/

/-- C4: the field set is NOT fixed: on a row whose quantity selector has
`available_units > 0` but whose last option text carries no currency marker,
the emitted record lacks the `price_per_unit` key entirely (the inner `if`
has no `else` assigning the sentinel), while on the well-formed document
every record carries all nine keys in the documented order.  The spec is the
intent (the sibling branches do assign the `'N/A'` sentinel); the missing
assignment is a slip in the code. -/
theorem C4_field_set_not_fixed :
    (extract_room_data exDocNoCurrency).map
        (fun rs => rs.map (fun r => r.map Prod.fst)) =
      .ok [["room_type", "description", "price", "cancellation_policy",
            "max_occupancy", "available_units",
            "breakfast_included", "meals_included"]] ∧
    (extract_room_data exDocOk).map
        (fun rs => rs.map (fun r => r.map Prod.fst)) =
      .ok [["room_type", "description", "price", "cancellation_policy",
            "max_occupancy", "available_units", "price_per_unit",
            "breakfast_included", "meals_included"],
           ["room_type", "description", "price", "cancellation_policy",
            "max_occupancy", "available_units", "price_per_unit",
            "breakfast_included", "meals_included"]] :=
  ⟨rfl, rfl⟩

/-! ## Claim C5 -/

/-- C5: on a row with `available_units = 1 > 0` whose last option text `"1"`
contains no currency marker, `price_per_unit` is NOT the sentinel — the key
is missing from the record altogether — refuting "in every other case
price_per_unit is the sentinel".  The spec's worked example does hold: the
options `0 / 1 ($100) / 2 ($6,584)` of the first well-formed row give
`available_units = 2` and `price_per_unit = "6584"`. -/
theorem C5_price_per_unit :
    extract_room_data exDocNoCurrency = .ok [exDocNoCurrencyRecord] ∧
    getField exDocNoCurrencyRecord "available_units" = some (Value.i 1) ∧
    getField exDocNoCurrencyRecord "price_per_unit" = none ∧
    getField (exDocOkRecords.getD 0 []) "available_units" =
      some (Value.i 2) ∧
    getField (exDocOkRecords.getD 0 []) "price_per_unit" =
      some (Value.s "6584") :=
  ⟨rfl, rfl, rfl, rfl, rfl⟩

/-! ## Claim C6 -/

/-- C6: in a completed pass every record's `available_units` is an integer
≥ 0 equal to the spec formula: the number of option elements of the row's
quantity selector minus one when a selector is present, and 0 when no
selector is present. -/
theorem C6_available_units (doc : List Node) (recs : List Record)
    (h : extract_room_data doc = .ok recs) (k : Nat) (hk : k < recs.length) :
    getField (recs.getD k []) "available_units" =
      some (Value.i
        (availableUnitsSpec ((rowsOf doc).getD k (0, Node.text "")).2)) ∧
    0 ≤ availableUnitsSpec ((rowsOf doc).getD k (0, Node.text "")).2 ∧
    (selectOne ((rowsOf doc).getD k (0, Node.text "")).2 isQtySelect = none →
      availableUnitsSpec ((rowsOf doc).getD k (0, Node.text "")).2 = 0) := by
  have hlen := extractLoop_length (docFlat doc) (rowsOf doc) none recs h
  refine extractLoop_all (docFlat doc)
    (fun rcd q =>
      getField rcd "available_units" =
        some (Value.i (availableUnitsSpec q.2)) ∧
      0 ≤ availableUnitsSpec q.2 ∧
      (selectOne q.2 isQtySelect = none → availableUnitsSpec q.2 = 0))
    ?_ (rowsOf doc) none recs h k (by omega)
  intro i row cur rcd cur' hrow
  obtain ⟨rt, au, ppu, hrt, hu, hrec⟩ :=
    extractRow_ok (docFlat doc) i row cur rcd cur' hrow
  obtain ⟨hnone, hsome⟩ := unitsStep_ok row au ppu hu
  have hgu : getField rcd "available_units" = some (Value.i au) := by
    rw [hrec]
    exact getField_available_units _ _ _ _ _ _ _ _ _
  cases hs : selectOne row isQtySelect with
  | none =>
    obtain ⟨hau, _⟩ := hnone hs
    subst hau
    refine ⟨by simpa [availableUnitsSpec, hs] using hgu, ?_, fun _ => ?_⟩
    · simp [availableUnitsSpec, hs]
    · simp [availableUnitsSpec, hs]
  | some sel =>
    obtain ⟨hne, hau⟩ := hsome sel hs
    subst hau
    have hpos : ((descendants sel).filter isOptionElem).length ≠ 0 := by
      simpa [List.length_eq_zero] using hne
    refine ⟨by simpa [availableUnitsSpec, hs] using hgu, ?_, fun hcon => ?_⟩
    · simp only [availableUnitsSpec, hs]
      omega
    · exact absurd hcon (by simp)

/-- C6, witness: the amended-free statement applied to the first record of
the well-formed document (selector with three options, so 2 units). -/
theorem C6_witness :
    getField (exDocOkRecords.getD 0 []) "available_units" =
      some (Value.i
        (availableUnitsSpec ((rowsOf exDocOk).getD 0 (0, Node.text "")).2)) ∧
    0 ≤ availableUnitsSpec ((rowsOf exDocOk).getD 0 (0, Node.text "")).2 ∧
    (selectOne ((rowsOf exDocOk).getD 0 (0, Node.text "")).2 isQtySelect =
        none →
      availableUnitsSpec ((rowsOf exDocOk).getD 0 (0, Node.text "")).2 = 0) :=
  C6_available_units exDocOk exDocOkRecords extract_exDocOk 0 (by decide)

/-! ## Claim C7 -/

/-- C7: breakfast reconciliation is a monotonic OR of the two signals: every
record's `breakfast_included` equals the OR form `breakfastOr` — `"Yes"`
whenever the inline icon's fill is the defined green (`inlineBreakfastSignal`
is `"Yes"`), regardless of panel content, and otherwise `"Yes"` exactly when
the panel meals text contains "breakfast" case-insensitively; in particular
the panel never changes the flag from `"Yes"` to `"No"`. -/
theorem C7_breakfast_or (doc : List Node) (recs : List Record)
    (h : extract_room_data doc = .ok recs) (k : Nat) (hk : k < recs.length) :
    getField (recs.getD k []) "breakfast_included" =
      some (Value.s (breakfastOr (docFlat doc)
        ((rowsOf doc).getD k (0, Node.text "")).1
        ((rowsOf doc).getD k (0, Node.text "")).2)) ∧
    (inlineBreakfastSignal ((rowsOf doc).getD k (0, Node.text "")).2 =
        "Yes" →
      getField (recs.getD k []) "breakfast_included" =
        some (Value.s "Yes")) := by
  have hlen := extractLoop_length (docFlat doc) (rowsOf doc) none recs h
  refine extractLoop_all (docFlat doc)
    (fun rcd q =>
      getField rcd "breakfast_included" =
        some (Value.s (breakfastOr (docFlat doc) q.1 q.2)) ∧
      (inlineBreakfastSignal q.2 = "Yes" →
        getField rcd "breakfast_included" = some (Value.s "Yes")))
    ?_ (rowsOf doc) none recs h k (by omega)
  intro i row cur rcd cur' hrow
  obtain ⟨rt, au, ppu, hrt, hu, hrec⟩ :=
    extractRow_ok (docFlat doc) i row cur rcd cur' hrow
  have hgb : getField rcd "breakfast_included" =
      some (Value.s (panelStep (docFlat doc) i (inlineBreakfastSignal row)).1) := by
    rw [hrec]
    exact getField_breakfast _ _ _ _ _ _ _ _ _
  rw [panelStep_breakfast] at hgb
  refine ⟨hgb, fun hY => ?_⟩
  rw [hgb]
  unfold breakfastOr
  rw [if_pos hY]

/-- C7, witness: the first record of the well-formed document (green inline
icon) has `breakfast_included = "Yes"` in the OR form. -/
theorem C7_witness :
    getField (exDocOkRecords.getD 0 []) "breakfast_included" =
      some (Value.s (breakfastOr (docFlat exDocOk)
        ((rowsOf exDocOk).getD 0 (0, Node.text "")).1
        ((rowsOf exDocOk).getD 0 (0, Node.text "")).2)) ∧
    (inlineBreakfastSignal ((rowsOf exDocOk).getD 0 (0, Node.text "")).2 =
        "Yes" →
      getField (exDocOkRecords.getD 0 []) "breakfast_included" =
        some (Value.s "Yes")) :=
  C7_breakfast_or exDocOk exDocOkRecords extract_exDocOk 0 (by decide)

/-! ## Claim C8 -/

/-- C8: every record's `meals_included` is exactly `mealsIncludedSpec`:
`"Not specified"` when no policy modal follows the row, `"No meals
included"` when a modal is found but contains no Meals heading,
`"Not specified"` when a Meals heading is found but no description block
follows it, and otherwise the normalized text of the first description block
following the Meals heading. -/
theorem C8_meals_sentinels (doc : List Node) (recs : List Record)
    (h : extract_room_data doc = .ok recs) (k : Nat) (hk : k < recs.length) :
    getField (recs.getD k []) "meals_included" =
      some (Value.s (mealsIncludedSpec (docFlat doc)
        ((rowsOf doc).getD k (0, Node.text "")).1)) ∧
    (findNextFrom (docFlat doc)
        (((rowsOf doc).getD k (0, Node.text "")).1 + 1)
        isPolicyModalTemplate = none →
      getField (recs.getD k []) "meals_included" =
        some (Value.s "Not specified")) := by
  have hlen := extractLoop_length (docFlat doc) (rowsOf doc) none recs h
  refine extractLoop_all (docFlat doc)
    (fun rcd q =>
      getField rcd "meals_included" =
        some (Value.s (mealsIncludedSpec (docFlat doc) q.1)) ∧
      (findNextFrom (docFlat doc) (q.1 + 1) isPolicyModalTemplate = none →
        getField rcd "meals_included" = some (Value.s "Not specified")))
    ?_ (rowsOf doc) none recs h k (by omega)
  intro i row cur rcd cur' hrow
  obtain ⟨rt, au, ppu, hrt, hu, hrec⟩ :=
    extractRow_ok (docFlat doc) i row cur rcd cur' hrow
  have hgm : getField rcd "meals_included" =
      some (Value.s (panelStep (docFlat doc) i (inlineBreakfastSignal row)).2) := by
    rw [hrec]
    exact getField_meals _ _ _ _ _ _ _ _ _
  rw [panelStep_eq] at hgm
  refine ⟨hgm, fun hnone => ?_⟩
  rw [hgm]
  unfold mealsIncludedSpec
  rw [hnone]

/-- C8, witness: the second record of the well-formed document has no
following policy modal, hence `meals_included = "Not specified"`. -/
theorem C8_witness :
    getField (exDocOkRecords.getD 1 []) "meals_included" =
      some (Value.s (mealsIncludedSpec (docFlat exDocOk)
        ((rowsOf exDocOk).getD 1 (0, Node.text "")).1)) ∧
    (findNextFrom (docFlat exDocOk)
        (((rowsOf exDocOk).getD 1 (0, Node.text "")).1 + 1)
        isPolicyModalTemplate = none →
      getField (exDocOkRecords.getD 1 []) "meals_included" =
        some (Value.s "Not specified")) :=
  C8_meals_sentinels exDocOk exDocOkRecords extract_exDocOk 1 (by decide)

/-! ## Claim C9 -/

/-- C9: every record's `max_occupancy` is the trimmed segment of the raw
occupancy text after its last ':' ; if the text contains no ':' it is the
whole trimmed text; if the occupancy sub-element is absent it is the
sentinel `"N/A"`. -/
theorem C9_max_occupancy (doc : List Node) (recs : List Record)
    (h : extract_room_data doc = .ok recs) (k : Nat) (hk : k < recs.length) :
    getField (recs.getD k []) "max_occupancy" =
      some (Value.s (pyStrip (afterLastColon
        (occupancyRaw ((rowsOf doc).getD k (0, Node.text "")).2)))) ∧
    (selectOne ((rowsOf doc).getD k (0, Node.text "")).2 isOccupancyElem =
        none →
      getField (recs.getD k []) "max_occupancy" = some (Value.s "N/A")) ∧
    ((occupancyRaw ((rowsOf doc).getD k (0, Node.text "")).2).data.contains
        ':' = false →
      getField (recs.getD k []) "max_occupancy" =
        some (Value.s (pyStrip
          (occupancyRaw ((rowsOf doc).getD k (0, Node.text "")).2)))) := by
  have hlen := extractLoop_length (docFlat doc) (rowsOf doc) none recs h
  refine extractLoop_all (docFlat doc)
    (fun rcd q =>
      getField rcd "max_occupancy" =
        some (Value.s (pyStrip (afterLastColon (occupancyRaw q.2)))) ∧
      (selectOne q.2 isOccupancyElem = none →
        getField rcd "max_occupancy" = some (Value.s "N/A")) ∧
      ((occupancyRaw q.2).data.contains ':' = false →
        getField rcd "max_occupancy" =
          some (Value.s (pyStrip (occupancyRaw q.2)))))
    ?_ (rowsOf doc) none recs h k (by omega)
  intro i row cur rcd cur' hrow
  obtain ⟨rt, au, ppu, hrt, hu, hrec⟩ :=
    extractRow_ok (docFlat doc) i row cur rcd cur' hrow
  have hgo : getField rcd "max_occupancy" =
      some (Value.s (maxOccupancyOf row)) := by
    rw [hrec]
    exact getField_max_occupancy _ _ _ _ _ _ _ _ _
  refine ⟨by simpa [maxOccupancyOf] using hgo, fun hs => ?_, fun hnc => ?_⟩
  · rw [hgo]
    unfold maxOccupancyOf occupancyRaw
    rw [hs]
    rfl
  · rw [hgo]
    unfold maxOccupancyOf
    rw [afterLastColon_no_colon _ hnc]

/-- C9, witness: the first row's occupancy text "Occupancy: 2 adults" is
split on its last colon and trimmed. -/
theorem C9_witness :
    getField (exDocOkRecords.getD 0 []) "max_occupancy" =
      some (Value.s (pyStrip (afterLastColon
        (occupancyRaw ((rowsOf exDocOk).getD 0 (0, Node.text "")).2)))) ∧
    (selectOne ((rowsOf exDocOk).getD 0 (0, Node.text "")).2
        isOccupancyElem = none →
      getField (exDocOkRecords.getD 0 []) "max_occupancy" =
        some (Value.s "N/A")) ∧
    ((occupancyRaw
        ((rowsOf exDocOk).getD 0 (0, Node.text "")).2).data.contains ':' =
        false →
      getField (exDocOkRecords.getD 0 []) "max_occupancy" =
        some (Value.s (pyStrip
          (occupancyRaw ((rowsOf exDocOk).getD 0 (0, Node.text "")).2)))) :=
  C9_max_occupancy exDocOk exDocOkRecords extract_exDocOk 0 (by decide)

/-! ## Claim C10 -/

/-- C10: the detail panel used for a row is the first policy-modal template
in whole-document order following the row, not one scoped to the row: in
`exDoc10` the first row contains no policy modal among its descendants, yet
the panel search from its position lands on the modal that follows the
second row (preorder position 6, past the second row at position 3), so the
first record's `meals_included` and breakfast upgrade are taken from that
later panel instead of being reported as "Not specified". -/
theorem C10_panel_document_order :
    (descendants exDoc10Row1).all (fun n => !(isPolicyModalTemplate n)) =
      true ∧
    rowsOf exDoc10 = [(0, exDoc10Row1), (3, exDoc10Row2)] ∧
    findNextFrom (docFlat exDoc10) 1 isPolicyModalTemplate =
      some (6, exDoc10Tmpl) ∧
    extract_room_data exDoc10 = .ok [exDoc10Rec1, exDoc10Rec2] ∧
    getField exDoc10Rec1 "meals_included" =
      some (Value.s "Breakfast included for 2") ∧
    getField exDoc10Rec1 "breakfast_included" = some (Value.s "Yes") ∧
    getField exDoc10Rec1 "meals_included" ≠ some (Value.s "Not specified") :=
  ⟨rfl, rfl, rfl, rfl, rfl, rfl, by decide⟩
